import Mathlib

/-!
Verification of the token-balance aggregation pipeline of
`src/lib/neynar.ts` (`fetchUserTokenBalances` and its inner helper
`isLikelyScamToken`).

Shallow embedding conventions:
* JavaScript numbers are idealised as exact rationals.  They are carried
  as `JsNumber` (an integer numerator and a positive natural denominator,
  not necessarily reduced) so that all arithmetic is structural and can be
  evaluated by `decide`; `JsNumber.toRat` interprets them in `ℚ` for the
  semantic statements.  `NaN` and `undefined` are both modelled as
  `none : Option JsNumber`, which is faithful for this pipeline because
  every read of `value_usd` is guarded by `|| 0` and both `NaN` and
  `undefined` are falsy.
* `parseFloat` is modelled by `parseFloat?`, a longest-valid-prefix parser
  for `[whitespace][sign]digits[.digits][e[sign]digits]`, returning `none`
  for `NaN`.  (The `Infinity` literal is not modelled; the pipeline never
  meets it.)  Every value it produces has a power-of-ten denominator, so
  `qToString` (the model of `Number.prototype.toString`) renders it as the
  exact decimal JavaScript would print for the idealised value.
* `toLowerCase` is modelled per-character (ASCII case mapping), which
  matches JavaScript on every string the pipeline's fixed lists use.
* Network I/O (the Neynar balance fetch, the Bankr wallet fetch, and the
  logo enrichment, which only sets `logo_url`) is outside the pure
  pipeline and abstracted by `FetchOutcome`: the `try/catch` of the source
  is the `failure` branch and the `!response || !response.user_balance`
  early return is the `noBalanceData` branch.
-/

namespace WalletSearch

/-- Exact-rational idealisation of a JavaScript number: `num / den` with
`den > 0` (not necessarily in lowest terms).  Division by zero cannot
produce a `JsNumber` (see `JsNumber.div`); the pipeline only divides under
a positivity guard. -/
structure JsNumber where
  num : ℤ
  den : ℕ
  den_pos : 0 < den

instance : DecidableEq JsNumber := fun x y =>
  if h : x.num = y.num ∧ x.den = y.den then
    isTrue (by cases x; cases y; obtain ⟨h1, h2⟩ := h; cases h1; cases h2; rfl)
  else
    isFalse (fun he => h (by cases he; exact ⟨rfl, rfl⟩))

namespace JsNumber

/-- Embed an integer. -/
def ofInt (n : ℤ) : JsNumber := ⟨n, 1, one_pos⟩

/-- Exact addition. -/
def add (x y : JsNumber) : JsNumber :=
  ⟨x.num * y.den + y.num * x.den, x.den * y.den, Nat.mul_pos x.den_pos y.den_pos⟩

/-- Exact multiplication. -/
def mul (x y : JsNumber) : JsNumber :=
  ⟨x.num * y.num, x.den * y.den, Nat.mul_pos x.den_pos y.den_pos⟩

/-- Exact division.  A zero divisor would be `±Infinity`/`NaN` in
JavaScript, which `JsNumber` cannot represent; the source only divides
under a `balance > 0` guard, so that case is unreachable there and mapped
to `0`. -/
def div (x y : JsNumber) : JsNumber :=
  if h : y.num = 0 then ofInt 0
  else
    ⟨(if 0 < y.num then x.num * y.den else -(x.num * y.den)),
     x.den * y.num.natAbs,
     Nat.mul_pos x.den_pos (Int.natAbs_pos.mpr h)⟩

/-- Strict order, by cross multiplication (denominators are positive). -/
def ltb (x y : JsNumber) : Bool := decide (x.num * (y.den : ℤ) < y.num * (x.den : ℤ))

/-- Non-strict order, by cross multiplication. -/
def leb (x y : JsNumber) : Bool := decide (x.num * (y.den : ℤ) ≤ y.num * (x.den : ℤ))

/-- Interpretation as a rational number. -/
def toRat (x : JsNumber) : ℚ := (x.num : ℚ) / (x.den : ℚ)

end JsNumber

/-- JavaScript `v || 0` on a `number | undefined` slot (with `none`
standing for `undefined`/`NaN`, both falsy; `0 || 0 = 0` agrees with
`getD`). -/
def jsNum (v : Option JsNumber) : JsNumber := v.getD (JsNumber.ofInt 0)

/-- Model of `interface TokenBalance` from `src/lib/neynar.ts`.  Optional interface
fields are `Option`s. -/
structure TokenBalance where
  token_address : String
  token_name : String
  token_symbol : String
  balance : String
  balance_formatted : Option String := none
  price_usd : Option JsNumber := none
  value_usd : Option JsNumber := none
  logo_url : Option String := none
deriving DecidableEq

/-- Model of `interface TokenBalanceResult` from `src/lib/neynar.ts`. -/
structure TokenBalanceResult where
  fid : ℕ
  tokens : List TokenBalance
  total_value_usd : JsNumber
  error : Option String := none
deriving DecidableEq

/-- Decimal digits to a natural number. -/
def digitsVal (ds : List Char) : ℕ :=
  ds.foldl (fun a c => 10 * a + (c.toNat - 48)) 0

/-- Build `±mant / 10^k · 10^expVal` (the exponent acts on the numerator
when non-negative and on the denominator when negative). -/
def JsNumber.ofParts (neg : Bool) (mant k : ℕ) (expVal : ℤ) : JsNumber :=
  ⟨(if neg then -(mant : ℤ) else (mant : ℤ)) * 10 ^ expVal.toNat,
   10 ^ k * 10 ^ (-expVal).toNat,
   by positivity⟩

/-- Character-list core of the `parseFloat` model: skip leading
whitespace, optional sign, integer digits, optional fraction, optional
exponent; longest valid prefix; `none` models `NaN`. -/
def parseFloatChars (cs0 : List Char) : Option JsNumber :=
  let cs := cs0.dropWhile Char.isWhitespace
  let signRest : Bool × List Char :=
    match cs with
    | '-' :: rest => (true, rest)
    | '+' :: rest => (false, rest)
    | _ => (false, cs)
  let neg := signRest.1
  let cs1 := signRest.2
  let intPart := cs1.takeWhile Char.isDigit
  let cs2 := cs1.dropWhile Char.isDigit
  let fracRest : List Char × List Char :=
    match cs2 with
    | '.' :: rest => (rest.takeWhile Char.isDigit, rest.dropWhile Char.isDigit)
    | _ => ([], cs2)
  let fracPart := fracRest.1
  let cs3 := fracRest.2
  if intPart.isEmpty && fracPart.isEmpty then none
  else
    let k := fracPart.length
    let mant := digitsVal intPart * 10 ^ k + digitsVal fracPart
    let expVal : ℤ :=
      match cs3 with
      | e :: rest =>
        if e == 'e' || e == 'E' then
          let erest : Bool × List Char :=
            match rest with
            | '-' :: r => (true, r)
            | '+' :: r => (false, r)
            | _ => (false, rest)
          let eds := erest.2.takeWhile Char.isDigit
          if eds.isEmpty then 0
          else if erest.1 then -(digitsVal eds : ℤ) else (digitsVal eds : ℤ)
        else 0
      | [] => 0
    some (JsNumber.ofParts neg mant k expVal)

/-- Model of JavaScript `parseFloat`; `none` models `NaN`. -/
def parseFloat? (s : String) : Option JsNumber := parseFloatChars s.data

/-- Model of the source idiom `parseFloat(s) || 0`. -/
def parseFloatOr0 (s : String) : JsNumber := (parseFloat? s).getD (JsNumber.ofInt 0)

/-- Multiplicity of `p` in `m`, with explicit fuel (enough fuel is `m`). -/
def powIn (p : ℕ) : ℕ → ℕ → ℕ
  | 0, _ => 0
  | fuel + 1, m => if m ≠ 0 && m % p == 0 then powIn p fuel (m / p) + 1 else 0

/-- Drop trailing `'0'` characters. -/
def stripTrailingZeros (cs : List Char) : List Char :=
  (cs.reverse.dropWhile (fun c => c == '0')).reverse

/-- Model of `Number.prototype.toString` on a non-negative `JsNumber` whose
denominator divides a power of ten (every value the pipeline feeds it;
the final branch is unreachable there and rendered as `num/den`). -/
def qToStringNonneg (q : JsNumber) : String :=
  let d := q.den
  let a := powIn 2 d d
  let b := powIn 5 d d
  let k := max a b
  if d = 2 ^ a * 5 ^ b then
    let n := q.num.toNat * 10 ^ k / d
    let ip := n / 10 ^ k
    let fp := n % 10 ^ k
    let fpDigits := Nat.repr fp
    let padded := List.replicate (k - fpDigits.length) '0' ++ fpDigits.data
    let frac := stripTrailingZeros padded
    if frac.isEmpty then Nat.repr ip else Nat.repr ip ++ "." ++ String.mk frac
  else Nat.repr q.num.toNat ++ "/" ++ Nat.repr d

/-- Model of `Number.prototype.toString` on the exact idealisation of a JavaScript
number. -/
def qToString (q : JsNumber) : String :=
  if q.num < 0 then "-" ++ qToStringNonneg ⟨-q.num, q.den, q.den_pos⟩
  else qToStringNonneg q

/-- Does `p` occur as a contiguous block in the list? -/
def charsContain (p : List Char) : List Char → Bool
  | [] => p.isEmpty
  | c :: rest => p.isPrefixOf (c :: rest) || charsContain p rest

/-- JavaScript `String.prototype.includes` (substring test). -/
def strContains (s pat : String) : Bool := charsContain pat.data s.data

/-- JavaScript `String.prototype.toLowerCase`, per character (ASCII case
mapping, which agrees with JavaScript on the pipeline's fixed lists). -/
def strToLower (s : String) : String := String.mk (s.data.map Char.toLower)

/-- JavaScript `String.prototype.trim` (used only to state the spec's
trimming clause; the source itself never trims). -/
def jsTrim (s : String) : String :=
  String.mk (((s.data.dropWhile Char.isWhitespace).reverse.dropWhile
    Char.isWhitespace).reverse)

/-! The hard-coded lists of `isLikelyScamToken`.

The last entry of `knownScamNames` reproduces the source bytes exactly:
the file stores the token name as mojibake text (U+F8FF and Latin-1
letters), written here with escapes. -/

/-- The list `knownScamTokens.contracts`. -/
def knownScamContracts : List String :=
  ["0xc44a4f600f434c887be43449c8084ea0a08517b9",
   "0xe9d43de0898df63ba125384240699f7e4bae61d9",
   "0xad20b837d28eff66af55ef0962c6bdb7c7888cb8",
   "0xe3c84123d49cbfdfdfc94b9254525832eaca11f7",
   "0xc7507de6824cdd759da0d08c0ddcc1a50bd0f26d"]

/-- The list `knownScamTokens.names`. -/
def knownScamNames : List String :=
  ["phylactery", "jelly drink", "hoe benk", "cappa juice",
   "!!\uF8FF\u00FC\u00E8\u00DC\uF8FF\u00FC\u00EB\u00E2flip gg\uF8FF\u00FC\u00EB\u00E0"]

/-- The list `knownScamTokens.symbols`. -/
def knownScamSymbols : List String := ["phy", "drink", "hbk", "juice", "flip"]

/-- The list `knownScamTokens.suspiciousKeywords`. -/
def suspiciousKeywords : List String :=
  ["visit", "swap", "claim", "airdrop", "free", "bonus",
   "winner", "reward", "gift", "promo", ".com", ".xyz", ".to"]

/-- The list `defiStakingTokens.contracts`. -/
def defiStakingContracts : List String :=
  ["0xa0e430870c4604ccfc7b38ca7845b1ff653d0ff1",
   "0xc1256ae5ff1cf2719d4937adb3bbccab2e00a2ca"]

/-- The list `defiStakingTokens.symbols`. -/
def defiStakingSymbols : List String := ["mweth", "mwusdc"]

/-- The list `defiStakingTokens.nameKeywords`. -/
def defiStakingNameKeywords : List String :=
  ["moonwell flagship", "staked", "wrapped", "yield", "vault"]

/-- The allow-listed mintedmerch contract address. -/
def mintedMerchAddress : String := "0x774eaefe73df7959496ac92a77279a8d7d690b07"

/-- The hard-coded fallback unit price `0.000004235` for mintedmerch. -/
def mintedMerchUnitPrice : JsNumber := ⟨4235, 1000000000, by norm_num⟩

/-- The inner `isLikelyScamToken` closure of `fetchUserTokenBalances`:
the chained early-return `if`s of the source, in source order. -/
def isLikelyScamToken (token : TokenBalance) : Bool :=
  let value := jsNum token.value_usd
  let balance := parseFloatOr0 token.balance
  let nameToCheck := strToLower token.token_name
  let symbolToCheck := strToLower token.token_symbol
  let contractAddress := strToLower token.token_address
  if knownScamContracts.contains contractAddress then true
  else if defiStakingContracts.contains contractAddress then true
  else if knownScamNames.any (fun scam => nameToCheck == scam)
       || knownScamSymbols.any (fun scam => symbolToCheck == scam) then true
  else if defiStakingSymbols.any (fun symbol => symbolToCheck == symbol) then true
  else if defiStakingNameKeywords.any (fun keyword =>
       strContains nameToCheck keyword) then true
  else if suspiciousKeywords.any (fun keyword =>
       strContains nameToCheck keyword || strContains symbolToCheck keyword) then true
  else if JsNumber.ltb (JsNumber.ofInt 10000000) value
       && JsNumber.ltb balance (JsNumber.ofInt 100) then true
  else
    let pricePerToken :=
      if JsNumber.ltb (JsNumber.ofInt 0) balance then JsNumber.div value balance
      else JsNumber.ofInt 0
    JsNumber.ltb (JsNumber.ofInt 1000000) pricePerToken

/-- The in-place mutation of the mintedmerch branch of the value filter:
`if (!token.value_usd && token.balance) value_usd := parseFloat(balance) ×
0.000004235` (a `NaN` product stays `none`). -/
def mintedMerchFixup (token : TokenBalance) : TokenBalance :=
  if (jsNum token.value_usd).num = 0 ∧ token.balance ≠ "" then
    { token with value_usd :=
        (parseFloat? token.balance).map (fun b => JsNumber.mul b mintedMerchUnitPrice) }
  else token

/-- One step of the first filter of the pipeline (`tokensWithValue`):
`none` drops the token, `some` keeps the (possibly fixed-up) record. -/
def tokensWithValueFilter (token : TokenBalance) : Option TokenBalance :=
  if strToLower token.token_address == mintedMerchAddress then
    some (mintedMerchFixup token)
  else if JsNumber.ltb (JsNumber.ofInt 0) (jsNum token.value_usd) then some token
  else none

/-- The step `const tokensWithValue = aggregatedTokens.filter(...)` (with the
mintedmerch in-place mutation folded into the kept record). -/
def tokensWithValue (aggregatedTokens : List TokenBalance) : List TokenBalance :=
  aggregatedTokens.filterMap tokensWithValueFilter

/-- The step `const filteredTokens = tokensWithValue.filter(t => !isLikelyScamToken(t))`. -/
def filteredTokens (aggregatedTokens : List TokenBalance) : List TokenBalance :=
  (tokensWithValue aggregatedTokens).filter (fun token => !isLikelyScamToken token)

/-- The `tokenGroups` aggregation step for one colliding token: sum the
parsed balances (`parseFloat(..) || 0`), re-render the sum with
`toString()`, sum the `|| 0`-guarded USD values; all other fields keep the
first-seen record's values. -/
def mergeInto (existing token : TokenBalance) : TokenBalance :=
  let existingBalance := parseFloatOr0 existing.balance
  let newTokenBalance := parseFloatOr0 token.balance
  let combinedBalance := JsNumber.add existingBalance newTokenBalance
  let combinedValue := JsNumber.add (jsNum existing.value_usd) (jsNum token.value_usd)
  { existing with balance := qToString combinedBalance, value_usd := some combinedValue }

/-- One iteration of the `for (const token of allTokens)` aggregation
loop over the insertion-ordered `Map` (modelled as a list of its values,
keyed by the lowercased contract address). -/
def upsertToken (acc : List TokenBalance) (token : TokenBalance) : List TokenBalance :=
  if acc.any (fun e => strToLower e.token_address == strToLower token.token_address) then
    acc.map (fun e =>
      if strToLower e.token_address == strToLower token.token_address then
        mergeInto e token
      else e)
  else acc ++ [token]

/-- The conversion `Array.from(tokenGroups.values())` after the aggregation loop. -/
def aggregateTokens (allTokens : List TokenBalance) : List TokenBalance :=
  allTokens.foldl upsertToken []

/-- Insertion step of the stable descending sort: place `x` before the
first element that does not beat it (`.sort((a, b) => (b.value_usd || 0) -
(a.value_usd || 0))`, which JavaScript guarantees to be stable). -/
def insertByValueDesc (x : TokenBalance) : List TokenBalance → List TokenBalance
  | [] => [x]
  | y :: ys =>
    if JsNumber.leb (jsNum y.value_usd) (jsNum x.value_usd) then x :: y :: ys
    else y :: insertByValueDesc x ys

/-- The stable descending-by-USD-value sort. -/
def sortByValueDesc : List TokenBalance → List TokenBalance
  | [] => []
  | x :: xs => insertByValueDesc x (sortByValueDesc xs)

/-- The step `const sortedTokens = filteredTokens.sort(...).slice(0, 20)`. -/
def sortedTokens (aggregatedTokens : List TokenBalance) : List TokenBalance :=
  (sortByValueDesc (filteredTokens aggregatedTokens)).take 20

/-- The step `const totalValueUsd = sortedTokens.reduce((sum, t) => sum +
(t.value_usd || 0), 0)`. -/
def totalValueUsd (aggregatedTokens : List TokenBalance) : JsNumber :=
  (sortedTokens aggregatedTokens).foldl
    (fun acc token => JsNumber.add acc (jsNum token.value_usd)) (JsNumber.ofInt 0)

/-- Abstraction of the I/O surrounding the pure pipeline: `failure` is a
thrown upstream error caught by the source's `try/catch`; `noBalanceData`
is the `!response || !response.user_balance` early return; `success`
carries the per-verified-address token lists and the Bankr-wallet token
list that the source flattens into `allTokens`. -/
inductive FetchOutcome where
  | failure (msg : String)
  | noBalanceData
  | success (addressBalances : List (List TokenBalance))
            (bankrTokens : List TokenBalance)

/-- Model of `fetchUserTokenBalances`, as a function of the fetch outcome. -/
def fetchUserTokenBalances (fid : ℕ) (outcome : FetchOutcome) : TokenBalanceResult :=
  match outcome with
  | .failure msg =>
      { fid := fid, tokens := [], total_value_usd := JsNumber.ofInt 0, error := some msg }
  | .noBalanceData =>
      { fid := fid, tokens := [], total_value_usd := JsNumber.ofInt 0 }
  | .success addressBalances bankrTokens =>
      let allTokens := addressBalances.flatten ++ bankrTokens
      let aggregatedTokens := aggregateTokens allTokens
      { fid := fid, tokens := sortedTokens aggregatedTokens,
        total_value_usd := totalValueUsd aggregatedTokens }

/-! Concrete inputs used by the claim theorems and witnesses. -/

/-- Wallet A's holding of the spec's overlapping-token scenario. -/
def walletATok : TokenBalance :=
  { token_address := "0xAAA", token_name := "Alpha", token_symbol := "AL",
    balance := "100", value_usd := some (JsNumber.ofInt 50) }

/-- Wallet B's holding of the same scenario (same contract, different
case). -/
def walletBTok : TokenBalance :=
  { token_address := "0xaaa", token_name := "Alpha", token_symbol := "AL",
    balance := "50", value_usd := some (JsNumber.ofInt 25) }

/-- An innocuous holding that survives the whole pipeline. -/
def goodTok : TokenBalance :=
  { token_address := "0xb1", token_name := "alpha", token_symbol := "al",
    balance := "2", value_usd := some (JsNumber.ofInt 5) }

/-- A holding whose name is a scam-list entry padded with whitespace. -/
def wsTok : TokenBalance :=
  { token_address := "0xb2", token_name := " phylactery ", token_symbol := "pp",
    balance := "1", value_usd := some (JsNumber.ofInt 5) }

/-- An allow-listed (mintedmerch) holding with no upstream USD value and
a suspicious keyword in its name. -/
def mmScamTok : TokenBalance :=
  { token_address := "0x774eaefe73df7959496ac92a77279a8d7d690b07",
    token_name := "mintedmerch visit", token_symbol := "mm",
    balance := "1000", value_usd := none }

/-- An allow-listed (mintedmerch) holding with no upstream USD value and
an innocuous name. -/
def mmPlainTok : TokenBalance :=
  { token_address := "0x774eaefe73df7959496ac92a77279a8d7d690b07",
    token_name := "mintedmerch", token_symbol := "mm",
    balance := "1000", value_usd := none }

/-- A holding with `rawBalance "1"`, `usdValue 20000000`: implausible valuation from a
tiny balance. -/
def impossibleTok : TokenBalance :=
  { token_address := "0xb3", token_name := "big", token_symbol := "bg",
    balance := "1", value_usd := some (JsNumber.ofInt 20000000) }

/-- A holding with `rawBalance "1000"`, `usdValue 2000000000`: per-unit price
2,000,000. -/
def overpricedTok : TokenBalance :=
  { token_address := "0xb4", token_name := "big", token_symbol := "bg",
    balance := "1000", value_usd := some (JsNumber.ofInt 2000000000) }

/-- A holding with an unparseable balance and missing USD value, whose
contract collides (case-insensitively) with `walletATok`. -/
def badTok : TokenBalance :=
  { token_address := "0xaaa", token_name := "Alpha", token_symbol := "AL",
    balance := "abc", value_usd := none }

/-- The `i`-th synthetic holding: distinct address, value `i + 1`. -/
def mkTok (i : ℕ) : TokenBalance :=
  { token_address := "0xa" ++ Nat.repr i, token_name := "tkn", token_symbol := "tk",
    balance := "1", value_usd := some (JsNumber.ofInt (i + 1)) }

/-- Twenty-one distinct legitimate holdings (values 1..21). -/
def manyTokens : List TokenBalance := (List.range 21).map mkTok

/-- Thirty distinct legitimate holdings (values 1..30). -/
def thirtyTokens : List TokenBalance := (List.range 30).map mkTok

/-! Semantic linking lemmas for `JsNumber`. -/

theorem JsNumber.den_q_ne_zero (x : JsNumber) : ((x.den : ℚ)) ≠ 0 := by
  exact_mod_cast x.den_pos.ne'

theorem JsNumber.den_q_pos (x : JsNumber) : (0 : ℚ) < (x.den : ℚ) := by
  exact_mod_cast x.den_pos

theorem JsNumber.toRat_ofInt (n : ℤ) : (JsNumber.ofInt n).toRat = (n : ℚ) := by
  simp [ofInt, toRat]

theorem JsNumber.toRat_add (x y : JsNumber) :
    (JsNumber.add x y).toRat = x.toRat + y.toRat := by
  have hx := x.den_q_ne_zero
  have hy := y.den_q_ne_zero
  simp only [add, toRat]
  push_cast
  field_simp
  try ring

theorem JsNumber.toRat_mul (x y : JsNumber) :
    (JsNumber.mul x y).toRat = x.toRat * y.toRat := by
  have hx := x.den_q_ne_zero
  have hy := y.den_q_ne_zero
  simp only [mul, toRat]
  push_cast
  field_simp
  try ring

theorem JsNumber.ltb_iff (x y : JsNumber) :
    JsNumber.ltb x y = true ↔ x.toRat < y.toRat := by
  rw [ltb, decide_eq_true_iff, toRat, toRat, div_lt_div_iff x.den_q_pos y.den_q_pos]
  constructor <;> intro h <;> exact_mod_cast h

theorem JsNumber.leb_iff (x y : JsNumber) :
    JsNumber.leb x y = true ↔ x.toRat ≤ y.toRat := by
  rw [leb, decide_eq_true_iff, toRat, toRat, div_le_div_iff x.den_q_pos y.den_q_pos]
  constructor <;> intro h <;> exact_mod_cast h

theorem JsNumber.toRat_div_pos (x y : JsNumber) (hy : 0 < y.num) :
    (JsNumber.div x y).toRat = x.toRat / y.toRat := by
  have hx := x.den_q_ne_zero
  have hyd := y.den_q_ne_zero
  have hyn : ((y.num : ℚ)) ≠ 0 := by exact_mod_cast hy.ne'
  have hna : ((y.num.natAbs : ℕ) : ℚ) = (y.num : ℚ) := by
    rw [Int.cast_natAbs, abs_of_nonneg]
    exact_mod_cast hy.le
  simp only [div, dif_neg hy.ne', if_pos hy, toRat]
  push_cast
  rw [hna]
  field_simp
  try ring

/-- The running total is the sum of the interpreted USD values. -/
theorem foldl_add_value_toRat (l : List TokenBalance) (acc : JsNumber) :
    (l.foldl (fun a t => JsNumber.add a (jsNum t.value_usd)) acc).toRat
      = acc.toRat + (l.map (fun t => (jsNum t.value_usd).toRat)).sum := by
  induction l generalizing acc with
  | nil => simp
  | cons t ts ih => rw [List.foldl_cons, ih, JsNumber.toRat_add]; simp; ring

/-! The stable descending insertion sort. -/

theorem mem_insertByValueDesc {t x : TokenBalance} {l : List TokenBalance} :
    t ∈ insertByValueDesc x l ↔ t = x ∨ t ∈ l := by
  induction l with
  | nil => simp [insertByValueDesc]
  | cons y ys ih =>
    simp only [insertByValueDesc]
    split
    · simp [List.mem_cons]
    · simp only [List.mem_cons, ih]
      tauto

theorem mem_sortByValueDesc {t : TokenBalance} {l : List TokenBalance} :
    t ∈ sortByValueDesc l ↔ t ∈ l := by
  induction l with
  | nil => simp [sortByValueDesc]
  | cons x xs ih => simp [sortByValueDesc, mem_insertByValueDesc, ih]

theorem pairwise_insertByValueDesc {x : TokenBalance} {l : List TokenBalance}
    (hl : l.Pairwise (fun a b => (jsNum b.value_usd).toRat ≤ (jsNum a.value_usd).toRat)) :
    (insertByValueDesc x l).Pairwise
      (fun a b => (jsNum b.value_usd).toRat ≤ (jsNum a.value_usd).toRat) := by
  induction l with
  | nil => simp [insertByValueDesc]
  | cons y ys ih =>
    obtain ⟨hy, hys⟩ := List.pairwise_cons.mp hl
    simp only [insertByValueDesc]
    split
    · rename_i hle
      rw [JsNumber.leb_iff] at hle
      exact List.pairwise_cons.mpr ⟨fun b hb => by
        rcases List.mem_cons.mp hb with rfl | hb
        · exact hle
        · exact le_trans (hy b hb) hle, hl⟩
    · rename_i hgt
      have hlt : (jsNum x.value_usd).toRat < (jsNum y.value_usd).toRat := by
        have := (not_congr (JsNumber.leb_iff (jsNum y.value_usd) (jsNum x.value_usd))).mp
          (by simpa using hgt)
        exact lt_of_not_le this
      exact List.pairwise_cons.mpr ⟨fun b hb => by
        rcases mem_insertByValueDesc.mp hb with rfl | hb
        · exact hlt.le
        · exact hy b hb, ih hys⟩

theorem pairwise_sortByValueDesc (l : List TokenBalance) :
    (sortByValueDesc l).Pairwise
      (fun a b => (jsNum b.value_usd).toRat ≤ (jsNum a.value_usd).toRat) := by
  induction l with
  | nil => simp [sortByValueDesc]
  | cons x xs ih => exact pairwise_insertByValueDesc ih

/-- Ties keep their relative order: inserting never reorders the
equal-value fibre. -/
theorem filter_value_insertByValueDesc (x : TokenBalance) (l : List TokenBalance) (v : ℚ) :
    (insertByValueDesc x l).filter (fun t => decide ((jsNum t.value_usd).toRat = v))
      = if (jsNum x.value_usd).toRat = v
        then x :: l.filter (fun t => decide ((jsNum t.value_usd).toRat = v))
        else l.filter (fun t => decide ((jsNum t.value_usd).toRat = v)) := by
  induction l with
  | nil =>
    simp only [insertByValueDesc]
    by_cases hx : (jsNum x.value_usd).toRat = v <;> simp [List.filter_cons, hx]
  | cons y ys ih =>
    simp only [insertByValueDesc]
    split
    · rename_i hle
      by_cases hx : (jsNum x.value_usd).toRat = v <;> simp [List.filter_cons, hx]
    · rename_i hgt
      have hlt : (jsNum x.value_usd).toRat < (jsNum y.value_usd).toRat := by
        have := (not_congr (JsNumber.leb_iff (jsNum y.value_usd) (jsNum x.value_usd))).mp
          (by simpa using hgt)
        exact lt_of_not_le this
      by_cases hx : (jsNum x.value_usd).toRat = v
      · have hyv : ¬ (jsNum y.value_usd).toRat = v := by
          rw [← hx]; exact fun h => absurd h.symm hlt.ne
        simp [List.filter_cons, hx, hyv, ih]
      · by_cases hyv : (jsNum y.value_usd).toRat = v <;>
          simp [List.filter_cons, hx, hyv, ih]

/-! Unpacking `isLikelyScamToken t = false`. -/

theorem scam_of_contract {t : TokenBalance}
    (hc : knownScamContracts.contains (strToLower t.token_address) = true) :
    isLikelyScamToken t = true := by
  have hm : strToLower t.token_address ∈ knownScamContracts := by simpa using hc
  simp [isLikelyScamToken, hm]

theorem scam_of_name {t : TokenBalance}
    (hc : knownScamNames.any (fun scam => strToLower t.token_name == scam) = true) :
    isLikelyScamToken t = true := by
  have hm : strToLower t.token_name ∈ knownScamNames := by
    obtain ⟨x, hx, he⟩ := List.any_eq_true.mp hc
    rwa [show strToLower t.token_name = x from by simpa using he]
  simp [isLikelyScamToken, hm]

theorem scam_of_symbol {t : TokenBalance}
    (hc : knownScamSymbols.any (fun scam => strToLower t.token_symbol == scam) = true) :
    isLikelyScamToken t = true := by
  have hm : strToLower t.token_symbol ∈ knownScamSymbols := by
    obtain ⟨x, hx, he⟩ := List.any_eq_true.mp hc
    rwa [show strToLower t.token_symbol = x from by simpa using he]
  simp [isLikelyScamToken, hm]

theorem scam_of_impossible_value {t : TokenBalance}
    (hv : JsNumber.ltb (JsNumber.ofInt 10000000) (jsNum t.value_usd) = true)
    (hb : JsNumber.ltb (parseFloatOr0 t.balance) (JsNumber.ofInt 100) = true) :
    isLikelyScamToken t = true := by
  simp [isLikelyScamToken, hv, hb]

theorem scam_of_price {t : TokenBalance}
    (hb : JsNumber.ltb (JsNumber.ofInt 0) (parseFloatOr0 t.balance) = true)
    (hp : JsNumber.ltb (JsNumber.ofInt 1000000)
      (JsNumber.div (jsNum t.value_usd) (parseFloatOr0 t.balance)) = true) :
    isLikelyScamToken t = true := by
  simp [isLikelyScamToken, hb, hp]

/-! What membership in the returned token list implies. -/

/-- Every returned token survived the scam filter, and entered the
pipeline through the value filter (possibly fixed up). -/
theorem mem_output_tokens {fid : ℕ} {o : FetchOutcome} {t : TokenBalance}
    (ht : t ∈ (fetchUserTokenBalances fid o).tokens) :
    isLikelyScamToken t = false ∧ ∃ s, tokensWithValueFilter s = some t := by
  cases o with
  | failure msg => simp [fetchUserTokenBalances] at ht
  | noBalanceData => simp [fetchUserTokenBalances] at ht
  | success addressBalances bankrTokens =>
    simp only [fetchUserTokenBalances, sortedTokens] at ht
    have h1 := mem_sortByValueDesc.mp (List.take_subset 20 _ ht)
    rw [filteredTokens, List.mem_filter] at h1
    obtain ⟨h2, h3⟩ := h1
    refine ⟨by simpa using h3, ?_⟩
    rw [tokensWithValue, List.mem_filterMap] at h2
    obtain ⟨s, _, hs⟩ := h2
    exact ⟨s, hs⟩

/-- The value filter leaves the contract address unchanged. -/
theorem tokensWithValueFilter_address {s t : TokenBalance}
    (h : tokensWithValueFilter s = some t) :
    t.token_address = s.token_address := by
  rw [tokensWithValueFilter] at h
  split at h
  · cases h
    rw [mintedMerchFixup]
    split <;> rfl
  · split at h
    · cases h; rfl
    · cases h

/-- A non-allow-listed token passes the value filter unchanged and only
with a strictly positive (guarded) USD value. -/
theorem tokensWithValueFilter_not_mm {s t : TokenBalance}
    (h : tokensWithValueFilter s = some t)
    (hmm : ¬ strToLower s.token_address = mintedMerchAddress) :
    t = s ∧ JsNumber.ltb (JsNumber.ofInt 0) (jsNum s.value_usd) = true := by
  rw [tokensWithValueFilter] at h
  split at h
  · rename_i hc
    exact absurd (by simpa using hc) hmm
  · split at h
    · cases h; exact ⟨rfl, by assumption⟩
    · cases h

theorem filter_value_sortByValueDesc (l : List TokenBalance) (v : ℚ) :
    (sortByValueDesc l).filter (fun t => decide ((jsNum t.value_usd).toRat = v))
      = l.filter (fun t => decide ((jsNum t.value_usd).toRat = v)) := by
  induction l with
  | nil => rfl
  | cons x xs ih =>
    rw [sortByValueDesc, filter_value_insertByValueDesc]
    by_cases hx : (jsNum x.value_usd).toRat = v <;> simp [List.filter_cons, hx, ih]

/-! Further shared helpers. -/

theorem JsNumber.eq_of_parts {x y : JsNumber}
    (h1 : x.num = y.num) (h2 : x.den = y.den) : x = y := by
  cases x
  cases y
  dsimp at h1 h2
  subst h1
  subst h2
  rfl

theorem JsNumber.add_ofInt_zero (x : JsNumber) :
    JsNumber.add x (JsNumber.ofInt 0) = x := by
  refine eq_of_parts ?_ ?_ <;> simp [add, ofInt]

theorem JsNumber.num_pos_iff (x : JsNumber) : 0 < x.num ↔ 0 < x.toRat := by
  constructor
  · intro h
    have h1 : (0 : ℚ) < (x.num : ℚ) := by exact_mod_cast h
    exact div_pos h1 x.den_q_pos
  · intro h
    by_contra hle
    push_neg at hle
    have h1 : ((x.num : ℚ)) ≤ 0 := by exact_mod_cast hle
    have h2 : x.toRat ≤ 0 := div_nonpos_iff.mpr (Or.inr ⟨h1, x.den_q_pos.le⟩)
    exact absurd h (not_lt.mpr h2)

/-- Aggregating two holdings with the same (case-insensitive) contract
address merges them into one record. -/
theorem aggregateTokens_pair (t1 t2 : TokenBalance)
    (h : strToLower t1.token_address = strToLower t2.token_address) :
    aggregateTokens [t1, t2] = [mergeInto t1 t2] := by
  simp [aggregateTokens, upsertToken, h]

/-- The value filter always keeps an allow-listed token, applying the
in-place fallback-price fixup. -/
theorem valueFilter_mm (s : TokenBalance)
    (h : strToLower s.token_address = mintedMerchAddress) :
    tokensWithValueFilter s = some (mintedMerchFixup s) := by
  rw [tokensWithValueFilter, if_pos (by simp [h])]

/-! The claims. -/

/-- C1: for every input, the returned `total_value_usd` equals the sum of
`usdValue` over exactly the holdings present in the returned (bounded)
list; and on a concrete input with 21 surviving holdings it differs from
the sum over the full pre-truncation set of survivors. -/
theorem C1_total_consistency :
    (∀ (fid : ℕ) (o : FetchOutcome),
        (fetchUserTokenBalances fid o).total_value_usd.toRat
          = ((fetchUserTokenBalances fid o).tokens.map
              (fun t => (jsNum t.value_usd).toRat)).sum)
    ∧ (fetchUserTokenBalances 7 (.success [manyTokens] [])).total_value_usd.toRat
        ≠ ((filteredTokens (aggregateTokens manyTokens)).map
            (fun t => (jsNum t.value_usd).toRat)).sum := by
  constructor
  · intro fid o
    cases o with
    | failure msg => simp [fetchUserTokenBalances, JsNumber.toRat_ofInt]
    | noBalanceData => simp [fetchUserTokenBalances, JsNumber.toRat_ofInt]
    | success addressBalances bankrTokens =>
      simp only [fetchUserTokenBalances, totalValueUsd]
      rw [foldl_add_value_toRat, JsNumber.toRat_ofInt]
      push_cast
      ring
  · have h1 : (fetchUserTokenBalances 7 (.success [manyTokens] [])).total_value_usd
        = JsNumber.ofInt 230 := by decide
    have h2 : (filteredTokens (aggregateTokens manyTokens)).foldl
        (fun acc t => JsNumber.add acc (jsNum t.value_usd)) (JsNumber.ofInt 0)
        = JsNumber.ofInt 231 := by decide
    have h3 := foldl_add_value_toRat (filteredTokens (aggregateTokens manyTokens))
      (JsNumber.ofInt 0)
    rw [h2, JsNumber.toRat_ofInt, JsNumber.toRat_ofInt] at h3
    push_cast at h3
    rw [zero_add] at h3
    rw [h1, JsNumber.toRat_ofInt, ← h3]
    norm_num

/-- C2 counterexample: on the spec's concrete scenario the single merged
holding keeps wallet A's first-seen address casing `"0xAAA"`; it is not
the holding with contract `"0xaaa"` the claim promises. -/
theorem C2_counterexample :
    (fetchUserTokenBalances 1 (.success [[walletATok], [walletBTok]] [])).tokens.map
        (fun t => t.token_address) = ["0xAAA"]
    ∧ ("0xAAA" : String) ≠ "0xaaa" := by
  exact ⟨by decide, by decide⟩

/-- C2 (amended): merging two holdings whose contract addresses are equal
up to case yields a single record whose `balance` renders the sum of the
parsed balances and whose `usdValue` is the sum of the guarded values,
all other fields coming from the first-seen record; on the concrete
scenario the merged holding is wallet A's record (address `"0xAAA"`) with
balance `"150"` and usdValue `75`. -/
theorem C2_merge_by_contract (t1 t2 : TokenBalance)
    (h : strToLower t1.token_address = strToLower t2.token_address) :
    aggregateTokens [t1, t2]
      = [{ t1 with
            balance := qToString (JsNumber.add (parseFloatOr0 t1.balance)
              (parseFloatOr0 t2.balance)),
            value_usd := some (JsNumber.add (jsNum t1.value_usd)
              (jsNum t2.value_usd)) }]
    ∧ (fetchUserTokenBalances 1 (.success [[walletATok], [walletBTok]] [])).tokens
      = [{ walletATok with balance := "150", value_usd := some ⟨75, 1, one_pos⟩ }] := by
  constructor
  · rw [aggregateTokens_pair t1 t2 h]
    rfl
  · decide

/-- C2 witness. -/
theorem C2_merge_by_contract_witness :
    aggregateTokens [walletATok, walletBTok]
      = [{ walletATok with
            balance := qToString (JsNumber.add (parseFloatOr0 walletATok.balance)
              (parseFloatOr0 walletBTok.balance)),
            value_usd := some (JsNumber.add (jsNum walletATok.value_usd)
              (jsNum walletBTok.value_usd)) }] :=
  (C2_merge_by_contract walletATok walletBTok (by decide)).1

/-- C3: every returned holding whose contract is not the allow-listed
exception has strictly positive USD value (so zero/missing/negative-
valued ones are absent); an allow-listed holding is always retained by
the zero-value filter, and when its `usdValue` is missing it is
recomputed as the parsed balance times the fixed unit price. -/
theorem C3_zero_value_drop :
    (∀ (fid : ℕ) (o : FetchOutcome) (t : TokenBalance),
        t ∈ (fetchUserTokenBalances fid o).tokens →
        ¬ strToLower t.token_address = mintedMerchAddress →
        0 < (jsNum t.value_usd).toRat)
    ∧ (∀ s : TokenBalance, strToLower s.token_address = mintedMerchAddress →
        tokensWithValueFilter s = some (mintedMerchFixup s))
    ∧ (∀ s : TokenBalance, s.value_usd = none →
        (mintedMerchFixup s).value_usd
          = (parseFloat? s.balance).map (fun b => JsNumber.mul b mintedMerchUnitPrice)) := by
  refine ⟨?_, valueFilter_mm, ?_⟩
  · intro fid o t ht hmm
    obtain ⟨-, s, hs⟩ := mem_output_tokens ht
    have haddr := tokensWithValueFilter_address hs
    have hsmm : ¬ strToLower s.token_address = mintedMerchAddress := by
      rwa [← haddr]
    obtain ⟨rfl, hpos⟩ := tokensWithValueFilter_not_mm hs hsmm
    rw [JsNumber.ltb_iff, JsNumber.toRat_ofInt] at hpos
    simpa using hpos
  · intro s hv
    by_cases hb : s.balance = ""
    · rw [mintedMerchFixup, if_neg (fun hcontra => hcontra.2 hb), hv, hb]
      decide
    · rw [mintedMerchFixup, if_pos ⟨by rw [hv]; rfl, hb⟩]

/-- C3 witness. -/
theorem C3_zero_value_drop_witness :
    0 < (jsNum goodTok.value_usd).toRat
    ∧ tokensWithValueFilter mmPlainTok = some (mintedMerchFixup mmPlainTok)
    ∧ (mintedMerchFixup mmPlainTok).value_usd
        = (parseFloat? mmPlainTok.balance).map
            (fun b => JsNumber.mul b mintedMerchUnitPrice) :=
  ⟨C3_zero_value_drop.1 1 (.success [[goodTok]] []) goodTok (by decide) (by decide),
   C3_zero_value_drop.2.1 mmPlainTok (by decide),
   C3_zero_value_drop.2.2 mmPlainTok (by decide)⟩

/-- C4: no holding whose lowercased contract address is in the fixed
scam-contract blocklist is ever present in the returned holdings,
whatever its USD value. -/
theorem C4_scam_contract_drop :
    ∀ (fid : ℕ) (o : FetchOutcome) (t : TokenBalance),
      t ∈ (fetchUserTokenBalances fid o).tokens →
      strToLower t.token_address ∉ knownScamContracts := by
  intro fid o t ht hmem
  obtain ⟨hscam, -⟩ := mem_output_tokens ht
  have hc : knownScamContracts.contains (strToLower t.token_address) = true := by
    simpa using hmem
  exact absurd (scam_of_contract hc) (by simp [hscam])

/-- C4 witness. -/
theorem C4_scam_contract_drop_witness :
    strToLower goodTok.token_address ∉ knownScamContracts :=
  C4_scam_contract_drop 1 (.success [[goodTok]] []) goodTok (by decide)

/-- C5: the returned list has length at most 20 and is sorted by USD
value in descending order; the sort keeps equal-valued holdings in their
pre-sort relative order; and on 30 surviving holdings with distinct
positive values the output is exactly the 20 highest values in
descending order. -/
theorem C5_rank_and_bound :
    (∀ (fid : ℕ) (o : FetchOutcome),
        (fetchUserTokenBalances fid o).tokens.length ≤ 20)
    ∧ (∀ (fid : ℕ) (o : FetchOutcome),
        (fetchUserTokenBalances fid o).tokens.Pairwise
          (fun a b => (jsNum b.value_usd).toRat ≤ (jsNum a.value_usd).toRat))
    ∧ (∀ (l : List TokenBalance) (v : ℚ),
        (sortByValueDesc l).filter (fun t => decide ((jsNum t.value_usd).toRat = v))
          = l.filter (fun t => decide ((jsNum t.value_usd).toRat = v)))
    ∧ (fetchUserTokenBalances 1 (.success [thirtyTokens] [])).tokens.map
        (fun t => jsNum t.value_usd)
      = (List.range 20).map (fun i => JsNumber.ofInt (30 - i)) := by
  refine ⟨?_, ?_, filter_value_sortByValueDesc, by decide⟩
  · intro fid o
    cases o with
    | failure msg => simp [fetchUserTokenBalances]
    | noBalanceData => simp [fetchUserTokenBalances]
    | success addressBalances bankrTokens =>
      simp only [fetchUserTokenBalances, sortedTokens]
      exact List.length_take_le _ _
  · intro fid o
    cases o with
    | failure msg => simp [fetchUserTokenBalances]
    | noBalanceData => simp [fetchUserTokenBalances]
    | success addressBalances bankrTokens =>
      simp only [fetchUserTokenBalances, sortedTokens]
      exact (pairwise_sortByValueDesc _).sublist (List.take_sublist _ _)

/-- C6 counterexample: the aggregator never pairs a non-empty `error`
with non-empty holdings (the catch branch is the only producer of
`error`, and it always returns an empty token list), refuting "the
presence of a non-empty error does not imply that the returned holdings
list is empty". -/
theorem C6_counterexample :
    ¬ ∃ (fid : ℕ) (o : FetchOutcome),
        (fetchUserTokenBalances fid o).error ≠ none
        ∧ (fetchUserTokenBalances fid o).tokens ≠ [] := by
  rintro ⟨fid, o, herr, htok⟩
  cases o with
  | failure msg => exact htok rfl
  | noBalanceData => exact herr rfl
  | success addressBalances bankrTokens => exact herr rfl

/-- C6 (amended): when the upstream fetch fails the aggregator returns
(never throws) a result whose `error` carries the failure message, with
empty holdings and zero total; the presence of a non-empty `error`
implies the returned holdings list is empty. -/
theorem C6_upstream_failure :
    (∀ (fid : ℕ) (msg : String),
        fetchUserTokenBalances fid (.failure msg)
          = { fid := fid, tokens := [], total_value_usd := JsNumber.ofInt 0,
              error := some msg })
    ∧ (∀ (fid : ℕ) (o : FetchOutcome),
        (fetchUserTokenBalances fid o).error ≠ none →
        (fetchUserTokenBalances fid o).tokens = []) := by
  refine ⟨fun fid msg => rfl, ?_⟩
  intro fid o herr
  cases o with
  | failure msg => rfl
  | noBalanceData => exact absurd rfl herr
  | success addressBalances bankrTokens => exact absurd rfl herr

/-- C6 witness. -/
theorem C6_upstream_failure_witness :
    fetchUserTokenBalances 1 (.failure "fetch failed")
      = { fid := 1, tokens := [], total_value_usd := JsNumber.ofInt 0,
          error := some "fetch failed" }
    ∧ (fetchUserTokenBalances 1 (.failure "fetch failed")).tokens = [] :=
  ⟨C6_upstream_failure.1 1 "fetch failed",
   C6_upstream_failure.2 1 (.failure "fetch failed") (by decide)⟩

/-- C7: empty input (zero wallets, or wallets with zero holdings) yields
the empty result with zero total and no error; and malformed data is
treated as zero: merging in a holding with unparseable balance and
missing value leaves the first holding's parsed balance and value
unchanged (no exception is possible — the pipeline is total by
construction). -/
theorem C7_graceful_degradation :
    (∀ fid : ℕ, fetchUserTokenBalances fid (.success [] [])
        = { fid := fid, tokens := [], total_value_usd := JsNumber.ofInt 0 })
    ∧ (∀ (fid : ℕ) (addressBalances : List (List TokenBalance)),
        (∀ l ∈ addressBalances, l = []) →
        fetchUserTokenBalances fid (.success addressBalances [])
          = { fid := fid, tokens := [], total_value_usd := JsNumber.ofInt 0 })
    ∧ (∀ t1 t2 : TokenBalance,
        strToLower t1.token_address = strToLower t2.token_address →
        parseFloat? t2.balance = none → t2.value_usd = none →
        aggregateTokens [t1, t2]
          = [{ t1 with
                balance := qToString (parseFloatOr0 t1.balance),
                value_usd := some (jsNum t1.value_usd) }]) := by
  refine ⟨fun fid => rfl, ?_, ?_⟩
  · intro fid addressBalances hempty
    have hflat : addressBalances.flatten = [] := by
      rw [List.flatten_eq_nil_iff]
      exact hempty
    simp only [fetchUserTokenBalances, hflat]
    rfl
  · intro t1 t2 h hb hv
    rw [aggregateTokens_pair t1 t2 h]
    simp only [mergeInto, parseFloatOr0, jsNum, hb, hv, Option.getD_none,
      JsNumber.add_ofInt_zero]

/-- C7 witness. -/
theorem C7_graceful_degradation_witness :
    fetchUserTokenBalances 3 (.success [[], []] [])
      = { fid := 3, tokens := [], total_value_usd := JsNumber.ofInt 0 }
    ∧ aggregateTokens [walletATok, badTok]
      = [{ walletATok with
            balance := qToString (parseFloatOr0 walletATok.balance),
            value_usd := some (jsNum walletATok.value_usd) }] :=
  ⟨C7_graceful_degradation.2.1 3 [[], []] (by decide),
   C7_graceful_degradation.2.2 walletATok badTok (by decide) (by decide) (by decide)⟩

/-- C8: no returned holding has USD value above 10,000,000 with a summed
quantity below 100; no returned holding with positive parsed balance has
a per-unit price above 1,000,000; and the two concrete implausible
holdings are excluded from the output. -/
theorem C8_implausible_valuations :
    (∀ (fid : ℕ) (o : FetchOutcome) (t : TokenBalance),
        t ∈ (fetchUserTokenBalances fid o).tokens →
        ¬ (10000000 < (jsNum t.value_usd).toRat
            ∧ (parseFloatOr0 t.balance).toRat < 100))
    ∧ (∀ (fid : ℕ) (o : FetchOutcome) (t : TokenBalance),
        t ∈ (fetchUserTokenBalances fid o).tokens →
        0 < (parseFloatOr0 t.balance).toRat →
        (jsNum t.value_usd).toRat / (parseFloatOr0 t.balance).toRat ≤ 1000000)
    ∧ (fetchUserTokenBalances 1 (.success [[impossibleTok]] [])).tokens = []
    ∧ (fetchUserTokenBalances 1 (.success [[overpricedTok]] [])).tokens = [] := by
  refine ⟨?_, ?_, by decide, by decide⟩
  · intro fid o t ht hcontra
    obtain ⟨hv, hb⟩ := hcontra
    obtain ⟨hscam, -⟩ := mem_output_tokens ht
    have h1 : JsNumber.ltb (JsNumber.ofInt 10000000) (jsNum t.value_usd) = true := by
      rw [JsNumber.ltb_iff, JsNumber.toRat_ofInt]
      exact_mod_cast hv
    have h2 : JsNumber.ltb (parseFloatOr0 t.balance) (JsNumber.ofInt 100) = true := by
      rw [JsNumber.ltb_iff, JsNumber.toRat_ofInt]
      exact_mod_cast hb
    exact absurd (scam_of_impossible_value h1 h2) (by simp [hscam])
  · intro fid o t ht hpos
    by_contra hgt
    push_neg at hgt
    obtain ⟨hscam, -⟩ := mem_output_tokens ht
    have hnum : 0 < (parseFloatOr0 t.balance).num :=
      (JsNumber.num_pos_iff _).mpr hpos
    have hb : JsNumber.ltb (JsNumber.ofInt 0) (parseFloatOr0 t.balance) = true := by
      rw [JsNumber.ltb_iff, JsNumber.toRat_ofInt]
      exact_mod_cast hpos
    have hp : JsNumber.ltb (JsNumber.ofInt 1000000)
        (JsNumber.div (jsNum t.value_usd) (parseFloatOr0 t.balance)) = true := by
      rw [JsNumber.ltb_iff, JsNumber.toRat_ofInt, JsNumber.toRat_div_pos _ _ hnum]
      exact_mod_cast hgt
    exact absurd (scam_of_price hb hp) (by simp [hscam])

/-- C8 witness. -/
theorem C8_implausible_valuations_witness :
    ¬ (10000000 < (jsNum goodTok.value_usd).toRat
        ∧ (parseFloatOr0 goodTok.balance).toRat < 100)
    ∧ (jsNum goodTok.value_usd).toRat / (parseFloatOr0 goodTok.balance).toRat
        ≤ 1000000 :=
  ⟨C8_implausible_valuations.1 1 (.success [[goodTok]] []) goodTok (by decide),
   C8_implausible_valuations.2.1 1 (.success [[goodTok]] []) goodTok (by decide)
     (by rw [show parseFloatOr0 goodTok.balance = ⟨2, 1, one_pos⟩ from by decide]
         norm_num [JsNumber.toRat])⟩

/-- C9 counterexample: the filter does not trim — a holding whose name is
a listed scam name padded with whitespace (so that its trimmed, lowered
name is exactly a scam-list entry) passes `isLikelyScamToken` and is
present in the returned holdings. -/
theorem C9_counterexample :
    jsTrim (strToLower wsTok.token_name) ∈ knownScamNames
    ∧ isLikelyScamToken wsTok = false
    ∧ (fetchUserTokenBalances 1 (.success [[wsTok]] [])).tokens = [wsTok] :=
  ⟨by decide, by decide, by decide⟩

/-- C9 (amended): a holding is discarded when its lowercased — but NOT
trimmed — name or symbol exactly equals an entry of the fixed scam
name/symbol lists: no returned holding has such a name or symbol (a
whitespace-padded scam name is not caught, per the counterexample). -/
theorem C9_scam_name_drop :
    ∀ (fid : ℕ) (o : FetchOutcome) (t : TokenBalance),
      t ∈ (fetchUserTokenBalances fid o).tokens →
      strToLower t.token_name ∉ knownScamNames
      ∧ strToLower t.token_symbol ∉ knownScamSymbols := by
  intro fid o t ht
  obtain ⟨hscam, -⟩ := mem_output_tokens ht
  constructor
  · intro hmem
    have hc : knownScamNames.any (fun scam => strToLower t.token_name == scam) = true :=
      List.any_eq_true.mpr ⟨_, hmem, by simp⟩
    exact absurd (scam_of_name hc) (by simp [hscam])
  · intro hmem
    have hc : knownScamSymbols.any (fun scam => strToLower t.token_symbol == scam) = true :=
      List.any_eq_true.mpr ⟨_, hmem, by simp⟩
    exact absurd (scam_of_symbol hc) (by simp [hscam])

/-- C9 witness. -/
theorem C9_scam_name_drop_witness :
    strToLower goodTok.token_name ∉ knownScamNames
    ∧ strToLower goodTok.token_symbol ∉ knownScamSymbols :=
  C9_scam_name_drop 1 (.success [[goodTok]] []) goodTok (by decide)

/-- C10: the allow-listed token is exempt only from the zero-value drop,
not from the scam/noise filter: the value filter keeps it (computing the
fallback value first), every returned holding — allow-listed or not —
passes `isLikelyScamToken`, and a concrete mintedmerch holding with a
suspicious keyword in its name is kept by the value filter yet absent
from the returned holdings. -/
theorem C10_allowlist_scope :
    (∀ s : TokenBalance, strToLower s.token_address = mintedMerchAddress →
        tokensWithValueFilter s = some (mintedMerchFixup s))
    ∧ (∀ (fid : ℕ) (o : FetchOutcome) (t : TokenBalance),
        t ∈ (fetchUserTokenBalances fid o).tokens →
        isLikelyScamToken t = false)
    ∧ tokensWithValueFilter mmScamTok = some (mintedMerchFixup mmScamTok)
    ∧ isLikelyScamToken (mintedMerchFixup mmScamTok) = true
    ∧ (fetchUserTokenBalances 1 (.success [[mmScamTok]] [])).tokens = [] :=
  ⟨valueFilter_mm,
   fun fid o t ht => (mem_output_tokens ht).1,
   by decide, by decide, by decide⟩

/-- C10 witness. -/
theorem C10_allowlist_scope_witness :
    tokensWithValueFilter mmPlainTok = some (mintedMerchFixup mmPlainTok)
    ∧ isLikelyScamToken goodTok = false :=
  ⟨C10_allowlist_scope.1 mmPlainTok (by decide),
   C10_allowlist_scope.2.1 1 (.success [[goodTok]] []) goodTok (by decide)⟩

end WalletSearch
